import Mathlib

/-!
Verification development for the medicover_aws pipeline
(src/parse_and_import_medicover.py, src/medicover_aws/utils.py).

The Python code is shallowly embedded: Python strings are `String`, Python
lists are `List`, Python dicts are association lists in insertion order,
Python sets are duplicate-free lists in insertion order, and Python
exceptions are `Except PyError`. String methods and the regular expressions
used by the code are modelled over ASCII, which covers every string constant
the pipeline manipulates.
-/

/-! ## Python string primitives -/

/-- ASCII lower-case letter test (the range a-z, code points 97-122). -/
def isAsciiLower (c : Char) : Bool := 97 ≤ c.toNat && c.toNat ≤ 122

/-- ASCII digit test (the range 0-9), modelling the regex class [0-9]. -/
def isAsciiDigit (c : Char) : Bool := 48 ≤ c.toNat && c.toNat ≤ 57

/-- Python str.upper on one character (ASCII). -/
def pyUpperChar (c : Char) : Char :=
  if h : 97 ≤ c.toNat ∧ c.toNat ≤ 122 then Char.ofNatAux (c.toNat - 32) (Or.inl (by omega))
  else c

/-- Python str.lower on one character (ASCII). -/
def pyLowerChar (c : Char) : Char :=
  if h : 65 ≤ c.toNat ∧ c.toNat ≤ 90 then Char.ofNatAux (c.toNat + 32) (Or.inl (by omega))
  else c

/-- Python str.upper (ASCII). -/
def pyUpper (s : String) : String := ⟨s.data.map pyUpperChar⟩

/-- Python str.lower (ASCII). -/
def pyLower (s : String) : String := ⟨s.data.map pyLowerChar⟩

/-- Python str.capitalize: first character upper-cased, the rest lower-cased. -/
def pyCapitalize (s : String) : String :=
  match s.data with
  | [] => ""
  | c :: cs => ⟨pyUpperChar c :: cs.map pyLowerChar⟩

/-- Worker for `pySplitChar`: accumulates the current field in reverse. -/
def splitCharGo (sep : Char) : List Char → List Char → List (List Char)
  | [], acc => [acc.reverse]
  | c :: rest, acc =>
    if c = sep then acc.reverse :: splitCharGo sep rest []
    else splitCharGo sep rest (c :: acc)

/-- Python str.split with a one-character separator (the code only ever splits
on an underscore or on a slash). -/
def pySplitChar (s : String) (sep : Char) : List String :=
  (splitCharGo sep s.data []).map (fun cs => ⟨cs⟩)

/-- Python s.lstrip with argument a single underscore. -/
def lstripU (s : String) : String := ⟨s.data.dropWhile (· == '_')⟩

/-- Python s.strip with argument a single underscore. -/
def stripU (s : String) : String :=
  ⟨((s.data.dropWhile (· == '_')).reverse.dropWhile (· == '_')).reverse⟩

/-- Python substring containment `sub in hay`. -/
def strIn (sub hay : String) : Bool := hay.data.tails.any (fun t => sub.data.isPrefixOf t)

/-! ## Python set and dict primitives -/

/-- Python set.add, on a duplicate-free list in insertion order. -/
def setAdd (x : String) (s : List String) : List String := if x ∈ s then s else s ++ [x]

/-- A Python dict from string keys to string-or-None values, in insertion
order (the shape of parsed_variant_data records). -/
abbrev PyDict := List (String × Option String)

/-- Python dict assignment `d[k] = v`: overwrite in place when the key exists,
append otherwise. -/
def dictSet (r : PyDict) (k : String) (v : Option String) : PyDict :=
  if (r.lookup k).isSome then r.map (fun kv => if kv.1 = k then (k, v) else kv)
  else r ++ [(k, v)]

/-- Python exceptions raised by the modelled code paths. -/
inductive PyError where
  | typeError (msg : String)
  | valueError (msg : String)
  | keyError (msg : String)
  deriving Repr, DecidableEq

/-! ## Panel Resolver (parse_and_import_medicover.py lines 98-163) -/

/-- One row of the panelapp disorder-reference table as consumed by the build
loop: the panel name and its relevant_disorders list. -/
structure PanelRow where
  name : String
  relevant_disorders : List String
  deriving Repr, DecidableEq

/-- One row of the rescued-panels mapping TSV (raw_panel, new_panel, r_code);
an absent r_code is the empty string, which is falsy. -/
structure RescueRow where
  raw_panel : String
  new_panel : String
  r_code : String
  deriving Repr, DecidableEq

/-- The per-sample value in sample_as_key: the Panels list plus the r_code and
panel_name sets created on demand by setdefault (modelled as insertion-ordered
duplicate-free lists, the empty list standing for a set never created). -/
structure SampleEntry where
  Panels : List String
  r_code : List String
  panel_name : List String
  deriving Repr, DecidableEq

/-- Worker for `hasRCode`: some position holds an R immediately followed by an
ASCII digit. -/
def hasRCodeGo : List Char → Bool
  | [] => false
  | a :: rest =>
    (a == 'R' && (match rest with | c :: _ => isAsciiDigit c | [] => false)) || hasRCodeGo rest

/-- Model of `re.search(r"R[0-9]+", disorder)` being a hit (lines 112-114). -/
def hasRCode (s : String) : Bool := hasRCodeGo s.data

/-- The r_code list collected at lines 112-114: disorders matching the R-code
pattern, in order. -/
def rCodeList (row : PanelRow) : List String :=
  row.relevant_disorders.filter (fun d => hasRCode d)

/-- r_code_info as joined at line 117; only meaningful when rCodeList is
non-empty, since at line 109 r_code_info starts as the falsy empty list. -/
def rCodeInfo (row : PanelRow) : String := String.intercalate ", " (rCodeList row)

/-- Truthiness of the right operand of `matched and r_code_info` at line 157:
the initial empty list is falsy when no code was found, otherwise the joined
string is tested for emptiness. -/
def rCodeTruthy (row : PanelRow) : Bool :=
  !(rCodeList row).isEmpty && rCodeInfo row != ""

/-- The normalized raw panel signature of lines 125-127: each panel stripped of
leading underscores, joined with a comma and a space. -/
def panelSig (panels : List String) : String :=
  String.intercalate ", " (panels.map lstripU)

/-- The rescue scan of lines 124-140: the first rescue entry whose raw_panel
equals the sample's signature wins (the branch ends in break). -/
def rescueHit (rescue : List RescueRow) (panels : List String) : Option RescueRow :=
  rescue.find? (fun d => panelSig panels == d.raw_panel)

/-- The rescue-branch update of a sample entry (lines 130-137): add the R-code
(prefixed with R) when present, and the new panel name. -/
def rescueApply (d : RescueRow) (e : SampleEntry) : SampleEntry :=
  let e1 := if d.r_code ≠ "" then { e with r_code := setAdd ("R" ++ d.r_code) e.r_code } else e
  { e1 with panel_name := setAdd d.new_panel e1.panel_name }

/-- The matched-flag loop of lines 145-155, threading the function-scoped
Python variable `matched`: the flag is reset to False at the top of every
panel iteration; a panel containing the reference panel name breaks the outer
loop with the flag True, while a disorder hit only breaks the inner disorder
loop, so the outer loop falls through to the next panel and resets the flag. -/
def matchedLoop (panel_name : String) (disorders : List String) :
    List String → Bool → Bool
  | [], m => m
  | p :: rest, _ =>
    if strIn panel_name p then true
    else matchedLoop panel_name disorders rest (disorders.any (fun d => strIn d p))

/-- Processing of one sample for one reference panel (lines 120-163): the
rescue scan first (on a hit the containment step is skipped via continue),
otherwise the matched-flag loop followed by the conditional accumulation of
lines 157-163. -/
def processSample (rescue : List RescueRow) (row : PanelRow) (e : SampleEntry) (m : Bool) :
    SampleEntry × Bool :=
  match rescueHit rescue e.Panels with
  | some d => (rescueApply d e, m)
  | none =>
    let m2 := matchedLoop row.name row.relevant_disorders e.Panels m
    if m2 && rCodeTruthy row then
      ({ e with r_code := setAdd (rCodeInfo row) e.r_code,
                panel_name := setAdd row.name e.panel_name }, m2)
    else (e, m2)

/-- The `for sample, panels in sample_as_key.items()` loop for one reference
panel, in dict insertion order, threading the matched flag across samples. -/
def processSamples (rescue : List RescueRow) (row : PanelRow) :
    List (String × SampleEntry) → Bool → List (String × SampleEntry) × Bool
  | [], m => ([], m)
  | (k, e) :: rest, m =>
    let r1 := processSample rescue row e m
    let r2 := processSamples rescue row rest r1.2
    ((k, r1.1) :: r2.1, r2.2)

/-- The outer `for panel_data in panelapp_dump` loop (lines 105-163). The Bool
argument is whatever value the Python variable `matched` holds before the
body runs; it leaks across loop iterations because Python loop variables are
function-scoped. -/
def buildIndex (rescue : List RescueRow) :
    List PanelRow → List (String × SampleEntry) → Bool → List (String × SampleEntry) × Bool
  | [], idx, m => (idx, m)
  | row :: rows, idx, m =>
    let r1 := processSamples rescue row idx m
    buildIndex rescue rows r1.1 r1.2

/-- sample_as_key as built at lines 98-101 from the xlsx rows: the upper-cased
CUH sample number mapped to an entry holding only the Panels list. -/
def mkSampleAsKey (rows : List (String × List String)) : List (String × SampleEntry) :=
  rows.map (fun r => (pyUpper r.1, ⟨r.2, [], []⟩))

/-! ## The parse_tsv call in main (utils.py lines 32-46, main lines 89-94) -/

/-- A Python runtime value, as far as the modelled fragments need one. -/
inductive PyVal where
  | none
  | str (s : String)
  | int (n : Int)
  | list (xs : List PyVal)
  deriving Repr

/-- Number of parameters of the definition `def parse_tsv(tsv_file):` in
src/medicover_aws/utils.py line 32. -/
def parse_tsv_paramCount : Nat := 1

/-- Python positional-call semantics: an arity mismatch raises TypeError
before the body ever runs. -/
def pyCall (fname : String) (paramCount : Nat) (args : List PyVal)
    (body : List PyVal → Except PyError PyVal) : Except PyError PyVal :=
  if args.length = paramCount then body args
  else
    .error (.typeError (fname ++ "() takes " ++ toString paramCount ++
      " positional argument but " ++ toString args.length ++ " were given"))

/-- The call `utils.parse_tsv(panelapp_file, "id", "name", "relevant_disorders")`
at lines 89-91 of parse_and_import_medicover.py, with the behaviour of the
parse_tsv body left abstract. -/
def mainPanelappDumpCall (panelapp_file : PyVal)
    (body : List PyVal → Except PyError PyVal) : Except PyError PyVal :=
  pyCall "parse_tsv" parse_tsv_paramCount
    [panelapp_file, .str "id", .str "name", .str "relevant_disorders"] body

/-- The Python builtin eval: its argument must be a string (or bytes or a code
object, which this code never passes); evalStr is the evaluation of a source
string. -/
def pyEvalBuiltin (evalStr : String → Except PyError PyVal) :
    PyVal → Except PyError PyVal
  | .str s => evalStr s
  | _ => .error (.typeError "eval() arg 1 must be a string, bytes or code object")

/-- A row in the output format of utils.parse_tsv (utils.py lines 38-44): the
relevant_disorders field has already been passed through eval once inside
parse_tsv and is therefore a Python list, not a string. -/
def parseTsvRow (panel_id nm : String) (disorders : List PyVal) : List (String × PyVal) :=
  [("id", .str panel_id), ("name", .str nm), ("relevant_disorders", .list disorders)]

/-- Line 106 of parse_and_import_medicover.py,
`relevant_disorders = eval(panel_data["relevant_disorders"])`, applied to one
row of parse_tsv output. -/
def buildLoopEvalLine (evalStr : String → Except PyError PyVal)
    (row : List (String × PyVal)) : Except PyError PyVal :=
  match row.lookup "relevant_disorders" with
  | some v => pyEvalBuiltin evalStr v
  | Option.none => .error (.keyError "relevant_disorders")

/-! ## Schema structures and the refalt strategy (lines 179-264) -/

/-- The structure tag assigned by the elif chain at lines 179-190. -/
inductive StructureTag where
  | standard
  | flat
  | nested
  deriving Repr, DecidableEq

/-- The refalt branch at lines 241-264. `primary` models
`jq.compile(jq_query).input_value(variant_data).first()` (None when the path
yields null or matches nothing), `altResult` the nested-only second query's
first() result. The membership test `"/" in jq_output` raises TypeError when
jq_output is None; `ref, alt = jq_output.split("/")` raises ValueError unless
the split has exactly two parts. -/
def refaltSplit (tag : StructureTag) (primary : Option String) (altResult : Option String) :
    Except PyError (Option String × Option String) :=
  match primary with
  | Option.none => .error (.typeError "argument of type 'NoneType' is not iterable")
  | some s =>
    if strIn "/" s then
      match pySplitChar s '/' with
      | [r, a] => .ok (some r, some a)
      | _ => .error (.valueError "too many values to unpack (expected 2)")
    else if tag = StructureTag.nested then .ok (some s, altResult)
    else .ok (Option.none, Option.none)

/-! ## The nested-structure code and reported branches (lines 293-296, 336-342) -/

/-- Lines 293-296: for the nested structure the code key prints a diagnostic
and executes `continue`, leaving parsed_variant_data untouched. -/
def codeKeyNested (record : PyDict) : PyDict × List String :=
  (record, ["ACGS code parsing not possible for nested structure"])

/-- Lines 336-342, nested case of the reported key: prints a diagnostic and
assigns None to the reported field. -/
def reportedKeyNested (record : PyDict) : PyDict × List String :=
  (dictSet record "reported" Option.none,
   ["Reported parsing not possible for nested structure"])

/-! ## Flattening of nested-structure variants (lines 204-211) -/

/-- One iteration of the flattening loop at lines 207-209: read only the
"snp" encoding type of the finding type and append its findings; a finding
type without an "snp" key raises KeyError. -/
def flattenStep {α : Type} (acc : Except PyError (List α))
    (ft : String × List (String × List α)) : Except PyError (List α) :=
  match acc with
  | .error e => .error e
  | .ok vs =>
    match ft.2.lookup "snp" with
    | some l => .ok (vs ++ l)
    | Option.none => .error (.keyError "snp")

/-- Lines 204-211: for the nested structure, evaluation is a dict
finding_type -> dict of encoding types -> list of findings, flattened by the
loop in dict insertion order. -/
def flattenNestedVariants {α : Type} (variants : List (String × List (String × List α))) :
    Except PyError (List α) :=
  variants.foldl flattenStep (.ok [])

/-- Modelled from the spec, for comparison with `flattenNestedVariants`: the
flattening the specification describes, namely the concatenation over every
finding-category and over every encoding-type within that category of that
encoding-type's list of findings. -/
def flattenFullGrouping {α : Type} (variants : List (String × List (String × List α))) :
    List α :=
  (variants.map (fun ft => (ft.2.map Prod.snd).flatten)).flatten

/-! ## The ACGS code/strength strategy, standard structure (lines 297-334) -/

/-- The fixed reference list of clinical significance codes (lines 13-40). -/
def ACGS_CODES : List String :=
  ["PVS1", "PS1", "PS2", "PS3", "PS4", "PM1", "PM2", "PM3", "PM4", "PM5", "PM6",
   "PP1", "PP2", "PP3", "PP4", "BA1", "BS1", "BS2", "BS3", "BS4", "BP1", "BP2",
   "BP3", "BP4", "BP5", "BP7"]

/-- The pairing `list(zip(criteria, criteria[1:]))[::2]` at lines 314-316:
alternating (code, strength) pairs, with a trailing unpaired element dropped. -/
def altPairs : List String → List (String × String)
  | c :: s :: rest => (c, s) :: altPairs rest
  | _ => []

/-- The strength normalization at lines 317-324:
`" ".join(ele.capitalize() for ele in strength.lower().capitalize().split("_"))`. -/
def normStrengthRaw (strength : String) : String :=
  String.intercalate " " ((pySplitChar (pyCapitalize (pyLower strength)) '_').map pyCapitalize)

/-- The full strength rendering including the Standalone rewrite of lines
326-327. -/
def normStrength (strength : String) : String :=
  let s := normStrengthRaw strength
  if s = "Standalone" then "Stand-Alone" else s

/-- `code.split("_")[0]` at line 329. -/
def codeBeforeUnderscore (code : String) : String :=
  (pySplitChar code '_').headD ""

/-- The membership test `reformatted_code.upper() in ACGS_CODES` at line 331. -/
def qualAcgs (p : String × String) : Bool :=
  ACGS_CODES.contains (pyUpper (codeBeforeUnderscore p.1))

/-- One loop body iteration of lines 314-334: a qualifying pair assigns the
normalized strength under the lower-cased code prefix, any other pair leaves
the record untouched. -/
def applyAcgsPair (record : PyDict) (p : String × String) : PyDict :=
  if qualAcgs p then
    dictSet record (pyLower (codeBeforeUnderscore p.1)) (some (normStrength p.2))
  else record

/-- Lines 312-334 (the standard-structure else branch of the code key):
jq_output is the .all() result, a list of criteria lists. -/
def acgsCodeStandard (record : PyDict) (jq_output : List (List String)) : PyDict :=
  jq_output.foldl (fun r criteria => (altPairs criteria).foldl applyAcgsPair r) record

/-- All (code, strength) pairs of a jq .all() output, in processing order. -/
def acgsPairsOf (jq_output : List (List String)) : List (String × String) :=
  (jq_output.map altPairs).flatten

/-! ## add_missing_keys (utils.py lines 66-97) -/

/-- The union of keys gathered at lines 84-87, in first-seen order (Python
iterates a set; the order is irrelevant to every property proved below). -/
def allKeys (data : List PyDict) : List String :=
  data.foldl (fun acc d => d.foldl (fun a kv => setAdd kv.1 a) acc) []

/-- The per-record fill of lines 89-93: every gathered key absent from the
record is appended with the placeholder string. -/
def padRecord (data : List PyDict) (d : PyDict) : PyDict :=
  d ++ ((allKeys data).filter (fun k => (d.lookup k).isNone)).map
    (fun k => (k, some "[null]"))

/-- utils.add_missing_keys (lines 66-97). -/
def add_missing_keys (data : List PyDict) : List PyDict :=
  data.map (padRecord data)

/-! ## Schema classification (lines 179-194) -/

/-- Lexicographic code-point comparison of character lists, the order jq uses
to sort object keys. -/
def charListLe : List Char → List Char → Bool
  | [], _ => true
  | _ :: _, [] => false
  | a :: as, b :: bs =>
    if a.toNat < b.toNat then true
    else if b.toNat < a.toNat then false
    else charListLe as bs

/-- Code-point order on strings, as a relation for sorting. -/
def strLeR (a b : String) : Prop := charListLe a.data b.data = true

instance : DecidableRel strLeR :=
  fun a b => inferInstanceAs (Decidable (charListLe a.data b.data = true))

/-- One element of a jq `keys` result: an array index or an object key. -/
inductive JKey where
  | idx (n : Nat)
  | name (s : String)
  deriving Repr, DecidableEq

/-- The top level of a report document as json.loads can deliver it. -/
inductive JTop where
  | arr (len : Nat)
  | obj (ks : List String)
  | str (s : String)
  | num (n : Int)
  | bool (b : Bool)
  | null
  deriving Repr, DecidableEq

/-- jq `keys` (the single output of `jq.compile("keys")`): the sorted key names
of an object, the indices of an array, and an error on every other input. -/
def jqKeys : JTop → Except PyError (List JKey)
  | .arr n => .ok ((List.range n).map JKey.idx)
  | .obj ks => .ok ((List.insertionSort strLeR ks).map JKey.name)
  | .str _ => .error (.valueError "string has no keys")
  | .num _ => .error (.valueError "number has no keys")
  | .bool _ => .error (.valueError "boolean has no keys")
  | .null => .error (.valueError "null (null) has no keys")

/-- The flat signature at line 183 (already in jq sorted order). -/
def flatSignature : List String :=
  ["assembly", "citations", "classificationSystem", "cnvs", "coverageSummary",
   "customFields", "evaluators", "failedRegions", "finalized", "geneList",
   "geneListDetails", "genePanelName", "geneThresholds", "lastModifiedDate",
   "lastModifiedDateUnix", "lastModifiedEmail", "lastModifiedUser",
   "patientDisorders", "patientPhenotypes", "reportDate", "reportDateUnix",
   "resultsSummary", "sampleId", "sampleState", "signedOffBy", "signedOffDate",
   "signedOffDateUnix", "signedOffEmail", "testResult", "variants",
   "versionedSources"]

/-- The nested signature at line 187 (already in jq sorted order). -/
def nestedSignature : List String :=
  ["case_data", "case_resolution_info", "family_data", "institution_info",
   "report_info", "signatures", "technical_info", "variants"]

/-- The outcome of the elif chain for one document. -/
inductive ClassifyResult where
  | standard
  | flat
  | nested
  | skipped
  deriving Repr, DecidableEq

/-- The elif chain at lines 179-194: compare the jq keys output against
[0, 1, 2] and the two named signatures, in order; no match means the document
is skipped. A jq error propagates as a raised exception. -/
def classifyReport (d : JTop) : Except PyError ClassifyResult :=
  match jqKeys d with
  | .error e => .error e
  | .ok ks =>
    if ks = [JKey.idx 0, JKey.idx 1, JKey.idx 2] then .ok .standard
    else if ks = flatSignature.map JKey.name then .ok .flat
    else if ks = nestedSignature.map JKey.name then .ok .nested
    else .ok .skipped

/-- The skipped_reports counting of the report loop (lines 166-194): the else
branch increments the counter and continues with the next report; a raised
exception aborts the loop. -/
def countSkipped : List JTop → Except PyError Nat
  | [] => .ok 0
  | d :: rest =>
    match classifyReport d with
    | .error e => .error e
    | .ok .skipped => (countSkipped rest).map (· + 1)
    | .ok _ => countSkipped rest

/-! ## GM number extraction and record enrichment (lines 436-468) -/

/-- Attempt of the regex GM[0-9]{2}_[0-9]+ (IGNORECASE) at the head of the
character list: G, M in either case, two digits, an underscore, then a
greedily-taken non-empty digit run. -/
def gmMatchAt (cs : List Char) : Option (List Char) :=
  match cs with
  | g :: m :: d1 :: d2 :: u :: rest =>
    if (g == 'G' || g == 'g') && (m == 'M' || m == 'm') && isAsciiDigit d1 &&
        isAsciiDigit d2 && (u == '_') then
      match rest.takeWhile isAsciiDigit with
      | [] => Option.none
      | ds => some (g :: m :: d1 :: d2 :: '_' :: ds)
    else Option.none
  | _ => Option.none

/-- re.search: the leftmost position where the pattern matches. -/
def gmSearchGo : List Char → Option (List Char)
  | [] => Option.none
  | c :: rest =>
    match gmMatchAt (c :: rest) with
    | some m => some m
    | Option.none => gmSearchGo rest

/-- `re.search(r"(?P<gm_number>GM[0-9]{2}_[0-9]+)", report, re.IGNORECASE)` at
lines 437-439, returning the matched text. -/
def gmSearch (s : String) : Option String := (gmSearchGo s.data).map (fun cs => ⟨cs⟩)

/-- `gm_number.replace("_", ".")` at line 443. -/
def underscoreToDot (s : String) : String :=
  ⟨s.data.map (fun c => if c == '_' then '.' else c)⟩

/-- Lines 436-468: extract the GM number from the report path, look it up in
sample_as_key without upper-casing, and enrich the record; on a miss the panel
field records the sentinel text. -/
def enrichWithPanels (sample_as_key : List (String × SampleEntry)) (reportPath : String)
    (record : PyDict) : PyDict :=
  match gmSearch reportPath with
  | Option.none => record
  | some gm0 =>
    let gm := underscoreToDot gm0
    match sample_as_key.lookup gm with
    | some entry =>
      let r1 := if entry.panel_name ≠ [] then
          dictSet record "preferred_condition_name"
            (some (String.intercalate ", " entry.panel_name))
        else record
      let r2 := if entry.r_code ≠ [] then
          dictSet r1 "r_code" (some (String.intercalate ", " entry.r_code))
        else r1
      dictSet r2 "panel" (some (String.intercalate ", " (entry.Panels.map stripU)))
    | Option.none => dictSet record "panel" (some "Sample not in Medicover data")

/-! ## Basic lemmas about the primitives -/

theorem mem_setAdd {y x : String} {s : List String} :
    y ∈ setAdd x s ↔ y = x ∨ y ∈ s := by
  unfold setAdd
  split <;> rename_i h
  · constructor
    · exact fun hy => Or.inr hy
    · rintro (rfl | hy) <;> assumption
  · simp [or_comm]

theorem setAdd_idem (x : String) (s : List String) :
    setAdd x (setAdd x s) = setAdd x s := by
  have hx : x ∈ setAdd x s := mem_setAdd.mpr (Or.inl rfl)
  show (if x ∈ setAdd x s then setAdd x s else setAdd x s ++ [x]) = setAdd x s
  exact if_pos hx

theorem lookup_cons_self {β : Type} (a : String) (b : β) (t : List (String × β)) :
    List.lookup a ((a, b) :: t) = some b := by
  simp [List.lookup]

theorem lookup_cons_ne {β : Type} {k a : String} (b : β) (t : List (String × β))
    (hne : k ≠ a) : List.lookup k ((a, b) :: t) = List.lookup k t := by
  simp [List.lookup, beq_eq_false_iff_ne.mpr hne]

/-- Auxiliary form of the dictSet lookup law, covering the overwrite branch. -/
theorem lookup_map_overwrite (r : PyDict) (k : String) (v : Option String) (k' : String) :
    (r.map (fun kv => if kv.1 = k then (k, v) else kv)).lookup k' =
      if k' = k then (if (r.lookup k).isSome then some v else none) else r.lookup k' := by
  induction r with
  | nil => simp [List.lookup]
  | cons a t ih =>
    obtain ⟨ak, av⟩ := a
    simp only [List.map_cons]
    by_cases hak : ak = k
    · rw [hak, if_pos rfl]
      by_cases hk' : k' = k
      · rw [hk', lookup_cons_self, if_pos rfl, lookup_cons_self]
        simp
      · rw [lookup_cons_ne _ _ hk', ih, if_neg hk', if_neg hk', lookup_cons_ne _ _ hk']
    · rw [if_neg hak]
      by_cases hk' : k' = ak
      · rw [hk', lookup_cons_self, if_neg hak, lookup_cons_self]
      · rw [lookup_cons_ne _ _ hk', ih, lookup_cons_ne _ _ (fun h => hak h.symm),
          lookup_cons_ne _ _ hk']

/-- Lookup after a Python dict assignment: the assigned key reads back the new
value, every other key is untouched. -/
theorem lookup_dictSet (r : PyDict) (k : String) (v : Option String) (k' : String) :
    (dictSet r k v).lookup k' = if k' = k then some v else r.lookup k' := by
  unfold dictSet
  split <;> rename_i h
  · rw [lookup_map_overwrite]
    simp [h]
  · rw [List.lookup_append]
    by_cases hkk : k' = k
    · subst hkk
      have hnone : r.lookup k' = none := by
        cases hr : r.lookup k' with
        | none => rfl
        | some x => exact absurd (by rw [hr]; rfl) h
      simp [hnone, List.lookup]
    · have hbeq : (k' == k) = false := beq_eq_false_iff_ne.mpr hkk
      simp [List.lookup, hbeq, hkk, Option.or_none]

/-! ## Characterization of the matched-flag loop -/

/-- The matched-flag loop computes: the reference panel name occurs in some
panel string, or (when no panel triggered the outer break) the value left by
the final iteration, namely a disorder hit on the last panel string; the
incoming flag survives only for an empty panel list. -/
theorem matchedLoop_eq (panel_name : String) (disorders : List String)
    (panels : List String) (m : Bool) :
    matchedLoop panel_name disorders panels m =
      (panels.any (fun q => strIn panel_name q)
        || match panels.getLast? with
           | some lastp => disorders.any (fun d => strIn d lastp)
           | Option.none => m) := by
  induction panels generalizing m with
  | nil => simp [matchedLoop]
  | cons p rest ih =>
    cases h : strIn panel_name p with
    | true => simp [matchedLoop, h]
    | false =>
      cases rest with
      | nil => simp [matchedLoop, h]
      | cons q rest' =>
        have hstep : matchedLoop panel_name disorders (p :: q :: rest') m =
            matchedLoop panel_name disorders (q :: rest')
              (disorders.any (fun d => strIn d p)) := by
          simp [matchedLoop, h]
        obtain ⟨x, hx⟩ : ∃ x, (q :: rest').getLast? = some x :=
          ⟨(q :: rest').getLast (by simp), List.getLast?_eq_getLast _ (by simp)⟩
        rw [hstep, ih, List.getLast?_cons_cons, hx]
        simp [h]

/-- C1 amended: absent a rescue hit and with a non-empty panel list, one
reference panel's pass over a sample accumulates the panel's name and joined
R-code string exactly when the reference panel has a derived R-code and
either its name is a substring of some raw panel string or one of its
disorder strings is a substring of the last raw panel string; a disorder
match on a non-final raw panel string is forgotten when the flag is reset. -/
theorem c1_containment_accumulation (rescue : List RescueRow) (row : PanelRow)
    (e : SampleEntry) (m : Bool) (hne : e.Panels ≠ [])
    (hmiss : rescueHit rescue e.Panels = Option.none) :
    (processSample rescue row e m).1 =
      if (e.Panels.any (fun q => strIn row.name q)
          || row.relevant_disorders.any (fun d => strIn d (e.Panels.getLast hne)))
         && rCodeTruthy row
      then { e with r_code := setAdd (rCodeInfo row) e.r_code,
                    panel_name := setAdd row.name e.panel_name }
      else e := by
  have hm : matchedLoop row.name row.relevant_disorders e.Panels m =
      ((e.Panels.any fun q => strIn row.name q) ||
        row.relevant_disorders.any fun d => strIn d (e.Panels.getLast hne)) := by
    rw [matchedLoop_eq, List.getLast?_eq_getLast _ hne]
  unfold processSample
  rw [hmiss]
  simp only [hm]
  split <;> rename_i hsplit <;> simp [hsplit]

/-- Witness for the amended C1 theorem at a concrete input: a panel with a
disorder hit on the (single, hence last) raw panel string accumulates. -/
theorem c1_containment_accumulation_witness :
    (processSample [] (PanelRow.mk "XYZ" ["zzR2"])
        (SampleEntry.mk ["a zzR2 b"] [] []) false).1 =
      SampleEntry.mk ["a zzR2 b"] ["zzR2"] ["XYZ"] := by
  have h := c1_containment_accumulation [] (PanelRow.mk "XYZ" ["zzR2"])
    (SampleEntry.mk ["a zzR2 b"] [] []) false (by simp) rfl
  rw [h]
  rfl

/-- C1 counterexample: the claim's containment condition holds (a disorder
string is a substring of the first of two raw panel strings, and the
reference panel has an R-code), yet the build accumulates nothing, because
the matched flag is reset by the second panel iteration. -/
theorem c1_counterexample :
    strIn "abcR1" "x abcR1 y" = true ∧
    rCodeTruthy (PanelRow.mk "XYZ" ["abcR1"]) = true ∧
    (buildIndex [] [PanelRow.mk "XYZ" ["abcR1"]]
        (mkSampleAsKey [("S", ["x abcR1 y", "zz"])]) false).1 =
      [("S", SampleEntry.mk ["x abcR1 y", "zz"] [] [])] :=
  ⟨rfl, rfl, rfl⟩

/-! ## C2: the parse_tsv call and the double eval -/

/-- C2: the Panel Resolver build phase cannot complete. utils.parse_tsv is
defined with exactly one parameter but main calls it with four positional
arguments, which raises TypeError under Python call semantics before the body
runs; and even on a row already in parse_tsv's own output format, line 106
applies eval a second time to the relevant_disorders field, which is by then
a Python list and not a string, again a TypeError. -/
theorem c2_parse_tsv_arity_and_double_eval
    (panelapp_file : PyVal) (body : List PyVal → Except PyError PyVal)
    (evalStr : String → Except PyError PyVal)
    (panel_id nm : String) (disorders : List PyVal) :
    mainPanelappDumpCall panelapp_file body =
      .error (.typeError "parse_tsv() takes 1 positional argument but 4 were given") ∧
    buildLoopEvalLine evalStr (parseTsvRow panel_id nm disorders) =
      .error (.typeError "eval() arg 1 must be a string, bytes or code object") := by
  refine ⟨?_, rfl⟩
  unfold mainPanelappDumpCall pyCall
  norm_num [parse_tsv_paramCount]
  rfl

/-! ## C4: refalt and the missing primary path -/

/-- C4 counterexample: when the primary path matches nothing (first() returns
None), the refalt strategy raises a TypeError from the membership test
`"/" in jq_output` instead of setting both fields to null without error. -/
theorem c4_counterexample :
    refaltSplit StructureTag.standard Option.none Option.none =
      .error (.typeError "argument of type 'NoneType' is not iterable") := rfl

/-- C4 amended: when the primary path yields a string value containing no
slash, a variant lacking a second designated alternate path sets both the
reference and alternate fields to null; but when the primary path matches
nothing, the strategy raises a TypeError rather than propagating null. -/
theorem c4_refalt_null_behaviour (tag : StructureTag) (s : String) (alt : Option String)
    (hslash : strIn "/" s = false) (htag : tag ≠ StructureTag.nested) :
    refaltSplit tag (some s) alt = .ok (Option.none, Option.none) ∧
    refaltSplit tag Option.none alt =
      .error (.typeError "argument of type 'NoneType' is not iterable") := by
  refine ⟨?_, rfl⟩
  simp [refaltSplit, hslash, htag]

/-- Witness for the amended C4 theorem at a concrete input. -/
theorem c4_refalt_null_behaviour_witness :
    refaltSplit StructureTag.standard (some "AT") Option.none =
      .ok (Option.none, Option.none) :=
  (c4_refalt_null_behaviour StructureTag.standard "AT" Option.none rfl (by decide)).1

/-! ## C5: the nested-structure unsupported strategies -/

/-- C5 counterexample: for a nested-structure finding the ACGS-codes strategy
adds no entry at all: starting from the empty record, the record after the
code key is still empty, so no explicit null or placeholder entry is emitted
for that strategy. -/
theorem c5_counterexample : (codeKeyNested []).1 = ([] : PyDict) := rfl

/-- C5 amended: for nested-structure findings the reported strategy emits an
explicit null entry plus a diagnostic note, but the ACGS-codes strategy only
prints its note and adds no entry: the record is returned unchanged, the case
being skipped with continue (uniform record shape is only restored later by
add_missing_keys). -/
theorem c5_nested_unsupported_strategies (record : PyDict) (k : String)
    (hk : k ≠ "reported") :
    (codeKeyNested record).1.lookup k = record.lookup k ∧
    (codeKeyNested record).1 = record ∧
    (codeKeyNested record).2 = ["ACGS code parsing not possible for nested structure"] ∧
    (reportedKeyNested record).1.lookup "reported" = some Option.none ∧
    (reportedKeyNested record).1.lookup k = record.lookup k ∧
    (reportedKeyNested record).2 = ["Reported parsing not possible for nested structure"] := by
  refine ⟨rfl, rfl, rfl, ?_, ?_, rfl⟩
  · unfold reportedKeyNested
    rw [lookup_dictSet]
    simp
  · unfold reportedKeyNested
    rw [lookup_dictSet]
    simp [hk]

/-- Witness for the C5 amended theorem at a concrete input. -/
theorem c5_nested_unsupported_strategies_witness :
    (reportedKeyNested []).1.lookup "pm2" = Option.none ∧
    (reportedKeyNested []).1.lookup "reported" = some Option.none := by
  have h := c5_nested_unsupported_strategies [] "pm2" (by decide)
  exact ⟨h.2.2.2.2.1, h.2.2.2.1⟩

/-! ## C6: the nested-structure flattening -/

/-- C6 counterexample: with one finding category holding both an "snp" and a
"cnv" encoding type, the loop hands over only the "snp" findings; the second
finding, present in the full two-level grouping, is dropped. -/
theorem c6_counterexample :
    flattenNestedVariants [("cat", [("snp", [1]), ("cnv", [2])])] = Except.ok [1] ∧
    flattenFullGrouping [("cat", [("snp", [1]), ("cnv", [2])])] = [1, 2] :=
  ⟨rfl, rfl⟩

/-- Auxiliary: the flattening fold with a generalized accumulator. -/
theorem flattenStep_foldl {α : Type} (variants : List (String × List (String × List α)))
    (vs : List α) (h : ∀ ft ∈ variants, (ft.2.lookup "snp").isSome) :
    variants.foldl flattenStep (Except.ok vs) =
      Except.ok (vs ++ (variants.map (fun ft => (ft.2.lookup "snp").getD [])).flatten) := by
  induction variants generalizing vs with
  | nil => simp
  | cons ft rest ih =>
    obtain ⟨l, hl⟩ := Option.isSome_iff_exists.mp (h ft (List.mem_cons_self ft rest))
    have hstep : flattenStep (Except.ok vs) ft = Except.ok (vs ++ l) := by
      unfold flattenStep
      rw [hl]
    rw [List.foldl_cons, hstep, ih _ (fun x hx => h x (List.mem_cons_of_mem ft hx))]
    simp [hl]

/-- C6 amended: the sequence handed to field mapping is the concatenation,
over every finding-category in order, of only that category's "snp"
encoding-type list; findings under any other encoding type are dropped (and a
category lacking an "snp" key raises KeyError, modelled in flattenStep). -/
theorem c6_flatten_snp_only {α : Type} (variants : List (String × List (String × List α)))
    (h : ∀ ft ∈ variants, (ft.2.lookup "snp").isSome) :
    flattenNestedVariants variants =
      Except.ok ((variants.map (fun ft => (ft.2.lookup "snp").getD [])).flatten) := by
  unfold flattenNestedVariants
  rw [flattenStep_foldl variants [] h]
  simp

/-- Witness for the C6 amended theorem at a concrete input. -/
theorem c6_flatten_snp_only_witness :
    flattenNestedVariants [("cat1", [("snp", [3])]), ("cat2", [("snp", [4, 5])])] =
      Except.ok [3, 4, 5] := by
  have h := c6_flatten_snp_only [("cat1", [("snp", [3])]), ("cat2", [("snp", [4, 5])])]
    (by intro ft hft; fin_cases hft <;> rfl)
  rw [h]
  rfl

/-! ## C3: rescue precedence -/

/-- rescueApply does not touch the Panels list. -/
theorem rescueApply_Panels (d : RescueRow) (e : SampleEntry) :
    (rescueApply d e).Panels = e.Panels := by
  by_cases hc : d.r_code = "" <;> simp [rescueApply, hc]

/-- On a rescue hit, processSample is the rescue update and the matched flag
passes through untouched (the continue skips the containment step). -/
theorem processSample_rescued {rescue : List RescueRow} {row : PanelRow}
    {e : SampleEntry} {m : Bool} {d : RescueRow}
    (hhit : rescueHit rescue e.Panels = some d) :
    processSample rescue row e m = (rescueApply d e, m) := by
  unfold processSample
  rw [hhit]

/-- Re-applying the same rescue entry is a no-op: the set adds deduplicate. -/
theorem rescueApply_idem (d : RescueRow) (e : SampleEntry) :
    rescueApply d (rescueApply d e) = rescueApply d e := by
  by_cases hc : d.r_code = "" <;> simp [rescueApply, hc, setAdd_idem]

/-- Positional description of one pass over all samples: the entry at
position i is processed with whatever flag the earlier samples left. -/
theorem processSamples_getElem (rescue : List RescueRow) (row : PanelRow)
    (idx : List (String × SampleEntry)) (m : Bool) (i : Nat) :
    ((processSamples rescue row idx m).1)[i]? =
      (idx[i]?).map (fun kv =>
        (kv.1, (processSample rescue row kv.2
          ((processSamples rescue row (idx.take i) m).2)).1)) := by
  induction idx generalizing m i with
  | nil => simp [processSamples]
  | cons a t ih =>
    obtain ⟨k, e⟩ := a
    cases i with
    | zero =>
      have hunf : (processSamples rescue row ((k, e) :: t) m).1 =
          (k, (processSample rescue row e m).1) ::
            (processSamples rescue row t (processSample rescue row e m).2).1 := rfl
      rw [hunf, List.getElem?_cons_zero, List.getElem?_cons_zero]
      rfl
    | succ j =>
      have hunf : (processSamples rescue row ((k, e) :: t) m).1 =
          (k, (processSample rescue row e m).1) ::
            (processSamples rescue row t (processSample rescue row e m).2).1 := rfl
      have hflag : (processSamples rescue row (((k, e) :: t).take (j + 1)) m).2 =
          (processSamples rescue row (t.take j) (processSample rescue row e m).2).2 := rfl
      rw [hunf, List.getElem?_cons_succ, ih, List.getElem?_cons_succ, hflag]

/-- A sample whose entry is a fixed point of its rescue update is preserved
verbatim by the whole build loop, whatever the other rows and samples do. -/
theorem buildIndex_rescued (rescue : List RescueRow) (dump : List PanelRow)
    (idx : List (String × SampleEntry)) (m : Bool) (i : Nat) (k : String)
    (e : SampleEntry) (d : RescueRow)
    (hidx : idx[i]? = some (k, e))
    (hhit : rescueHit rescue e.Panels = some d)
    (hfix : rescueApply d e = e) :
    ((buildIndex rescue dump idx m).1)[i]? = some (k, e) := by
  induction dump generalizing idx m with
  | nil => exact hidx
  | cons row rows ih =>
    have hstep : buildIndex rescue (row :: rows) idx m =
        buildIndex rescue rows (processSamples rescue row idx m).1
          (processSamples rescue row idx m).2 := rfl
    rw [hstep]
    apply ih
    rw [processSamples_getElem, hidx]
    simp [processSample_rescued hhit, hfix]

/-- C3: a sample whose normalized panel signature matches a rescue entry takes
its resolved panel name from the first matching rescue entry (and its code,
when present, is that entry's r_code prefixed with R), and the containment
matching of the disorder reference contributes nothing to that sample,
whatever the disorder reference contains. -/
theorem c3_rescue_precedence (dump : List PanelRow) (rescue : List RescueRow)
    (rows : List (String × List String)) (m : Bool) (i : Nat)
    (k : String) (panels : List String) (d : RescueRow)
    (hdump : dump ≠ [])
    (hrow : rows[i]? = some (k, panels))
    (hhit : rescueHit rescue panels = some d) :
    ((buildIndex rescue dump (mkSampleAsKey rows) m).1)[i]? =
      some (pyUpper k,
        SampleEntry.mk panels
          (if d.r_code ≠ "" then ["R" ++ d.r_code] else [])
          [d.new_panel]) := by
  obtain ⟨row, rows', rfl⟩ := List.exists_cons_of_ne_nil hdump
  have happ : rescueApply d (SampleEntry.mk panels [] []) =
      SampleEntry.mk panels
        (if d.r_code ≠ "" then ["R" ++ d.r_code] else []) [d.new_panel] := by
    by_cases hc : d.r_code = "" <;> simp [rescueApply, hc, setAdd]
  have hidx : (mkSampleAsKey rows)[i]? = some (pyUpper k, SampleEntry.mk panels [] []) := by
    unfold mkSampleAsKey
    rw [List.getElem?_map, hrow]
    rfl
  have hstep : buildIndex rescue (row :: rows') (mkSampleAsKey rows) m =
      buildIndex rescue rows' (processSamples rescue row (mkSampleAsKey rows) m).1
        (processSamples rescue row (mkSampleAsKey rows) m).2 := rfl
  rw [hstep]
  apply buildIndex_rescued rescue rows' _ _ i (pyUpper k) _ d
  · rw [processSamples_getElem, hidx]
    have hhit0 : rescueHit rescue (SampleEntry.mk panels [] []).Panels = some d := hhit
    simp [processSample_rescued hhit0, happ]
  · exact hhit
  · calc
      rescueApply d (SampleEntry.mk panels
          (if d.r_code ≠ "" then ["R" ++ d.r_code] else []) [d.new_panel])
        = rescueApply d (rescueApply d (SampleEntry.mk panels [] [])) := by rw [happ]
      _ = rescueApply d (SampleEntry.mk panels [] []) := rescueApply_idem d _
      _ = SampleEntry.mk panels
            (if d.r_code ≠ "" then ["R" ++ d.r_code] else []) [d.new_panel] := happ

/-- Witness for the C3 theorem at a concrete input: a rescued sample whose
signature matches the sole rescue entry resolves to that entry's panel and
R-prefixed code even though the reference panel row is present. -/
theorem c3_rescue_precedence_witness :
    ((buildIndex [RescueRow.mk "raw" "NewPanel" "42"] [PanelRow.mk "P" []]
        (mkSampleAsKey [("s1", ["_raw"])]) false).1)[0]? =
      some ("S1", SampleEntry.mk ["_raw"] ["R42"] ["NewPanel"]) := by
  have h := c3_rescue_precedence [PanelRow.mk "P" []] [RescueRow.mk "raw" "NewPanel" "42"]
    [("s1", ["_raw"])] false 0 "s1" ["_raw"] (RescueRow.mk "raw" "NewPanel" "42")
    (by simp) rfl rfl
  rw [h]
  rfl

/-! ## C7: the ACGS code/strength strategy -/

/-- The nested fold over criteria lists is the fold over the flat pair list. -/
theorem acgsCodeStandard_eq_foldl (record : PyDict) (out : List (List String)) :
    acgsCodeStandard record out = (acgsPairsOf out).foldl applyAcgsPair record := by
  unfold acgsCodeStandard acgsPairsOf
  rw [List.foldl_flatten, List.foldl_map]

/-- Last-wins lookup law for the pair fold: a key reads back the normalized
strength of the last qualifying pair carrying it, and is untouched otherwise. -/
theorem lookup_foldl_applyAcgsPair (pairs : List (String × String)) (r : PyDict) (k : String) :
    (pairs.foldl applyAcgsPair r).lookup k =
      match pairs.reverse.find? (fun p => qualAcgs p &&
          (pyLower (codeBeforeUnderscore p.1) == k)) with
      | some p => some (some (normStrength p.2))
      | Option.none => r.lookup k := by
  induction pairs using List.reverseRecOn with
  | nil => simp
  | append_singleton ps p ih =>
    rw [List.foldl_append, List.foldl_cons, List.foldl_nil, List.reverse_append]
    simp only [List.reverse_cons, List.reverse_nil, List.nil_append, List.singleton_append]
    have happ : ∀ r' : PyDict, applyAcgsPair r' p =
        if qualAcgs p then
          dictSet r' (pyLower (codeBeforeUnderscore p.1)) (some (normStrength p.2))
        else r' := fun _ => rfl
    rw [happ]
    by_cases hq : qualAcgs p
    · by_cases hk : pyLower (codeBeforeUnderscore p.1) = k
      · rw [if_pos hq, lookup_dictSet, if_pos hk.symm,
          List.find?_cons_of_pos _ (by simp [hq, hk])]
      · rw [if_pos hq, lookup_dictSet, if_neg (fun h => hk h.symm),
          List.find?_cons_of_neg _ (by simp [hk]), ih]
    · rw [if_neg hq, List.find?_cons_of_neg _ (by simp [hq]), ih]

/-- C7: over the standard structure, the ACGS strategy produces, for exactly
those (code, strength) pairs whose code prefix is in the reference list under
case-insensitive comparison, the lower-cased prefix as key mapped to the
normalized strength (last such pair winning on a repeated prefix); a pair
with an unlisted prefix contributes no key. Concrete conjuncts pin the
normalization down: ["PM2_Moderate", "SUPPORTING"] gives pm2 = "Supporting",
"STANDALONE" renders as "Stand-Alone", "VERY_STRONG" as "Very Strong", and an
unlisted code is dropped entirely. -/
theorem c7_acgs_code_strength (jq_output : List (List String)) (k : String) :
    ((acgsCodeStandard [] jq_output).lookup k =
      match (acgsPairsOf jq_output).reverse.find? (fun p => qualAcgs p &&
          (pyLower (codeBeforeUnderscore p.1) == k)) with
      | some p => some (some (normStrength p.2))
      | Option.none => Option.none) ∧
    acgsCodeStandard [] [["PM2_Moderate", "SUPPORTING"]] = [("pm2", some "Supporting")] ∧
    normStrength "STANDALONE" = "Stand-Alone" ∧
    normStrength "VERY_STRONG" = "Very Strong" ∧
    acgsCodeStandard [] [["XX9_q", "STRONG"]] = [] := by
  refine ⟨?_, rfl, rfl, rfl, rfl⟩
  rw [acgsCodeStandard_eq_foldl, lookup_foldl_applyAcgsPair]
  cases List.find? (fun p => qualAcgs p && (pyLower (codeBeforeUnderscore p.1) == k))
    (acgsPairsOf jq_output).reverse <;> rfl

/-! ## C8: add_missing_keys -/

/-- Key membership in the inner fold of allKeys. -/
theorem mem_keysFold (d : PyDict) (acc : List String) (y : String) :
    y ∈ d.foldl (fun a kv => setAdd kv.1 a) acc ↔ y ∈ acc ∨ ∃ kv ∈ d, kv.1 = y := by
  induction d generalizing acc with
  | nil => simp
  | cons kv t ih =>
    rw [List.foldl_cons, ih]
    simp only [mem_setAdd, List.mem_cons]
    constructor
    · rintro ((rfl | hy) | ⟨x, hx, rfl⟩)
      · exact Or.inr ⟨kv, Or.inl rfl, rfl⟩
      · exact Or.inl hy
      · exact Or.inr ⟨x, Or.inr hx, rfl⟩
    · rintro (hy | ⟨x, rfl | hx, rfl⟩)
      · exact Or.inl (Or.inr hy)
      · exact Or.inl (Or.inl rfl)
      · exact Or.inr ⟨x, hx, rfl⟩

/-- A key is gathered by allKeys exactly when some record carries it. -/
theorem mem_allKeys (data : List PyDict) (y : String) :
    y ∈ allKeys data ↔ ∃ d ∈ data, ∃ kv ∈ d, kv.1 = y := by
  have haux : ∀ (l : List PyDict) (acc : List String),
      y ∈ l.foldl (fun acc d => d.foldl (fun a kv => setAdd kv.1 a) acc) acc ↔
        y ∈ acc ∨ ∃ d ∈ l, ∃ kv ∈ d, kv.1 = y := by
    intro l
    induction l with
    | nil => simp
    | cons d t ih =>
      intro acc
      rw [List.foldl_cons, ih, mem_keysFold]
      simp only [List.mem_cons]
      constructor
      · rintro ((hy | h) | ⟨r, hr, h⟩)
        · exact Or.inl hy
        · exact Or.inr ⟨d, Or.inl rfl, h⟩
        · exact Or.inr ⟨r, Or.inr hr, h⟩
      · rintro (hy | ⟨r, rfl | hr, h⟩)
        · exact Or.inl (Or.inl hy)
        · exact Or.inl (Or.inr h)
        · exact Or.inr ⟨r, hr, h⟩
  unfold allKeys
  rw [haux]
  simp

/-- A lookup succeeds exactly when the key occurs in the record. -/
theorem lookup_isSome_iff (d : PyDict) (k : String) :
    (d.lookup k).isSome ↔ ∃ kv ∈ d, kv.1 = k := by
  induction d with
  | nil => simp [List.lookup]
  | cons kv t ih =>
    obtain ⟨a, b⟩ := kv
    by_cases hk : k = a
    · rw [hk, lookup_cons_self]
      simp
    · rw [lookup_cons_ne _ _ hk, ih]
      simp only [List.mem_cons]
      constructor
      · rintro ⟨x, hx, rfl⟩
        exact ⟨x, Or.inr hx, rfl⟩
      · rintro ⟨x, rfl | hx, rfl⟩
        · exact absurd rfl hk
        · exact ⟨x, hx, rfl⟩

/-- Lookup in the sentinel fill list. -/
theorem lookup_map_sentinel (ks : List String) (k : String) (v : Option String) :
    (ks.map (fun q => (q, v))).lookup k = if k ∈ ks then some v else Option.none := by
  induction ks with
  | nil => simp [List.lookup]
  | cons a t ih =>
    simp only [List.map_cons]
    by_cases hk : k = a
    · rw [hk, lookup_cons_self]
      simp
    · rw [lookup_cons_ne _ _ hk, ih]
      simp [List.mem_cons, hk]

/-- C8: after add_missing_keys every record's key set is the union of the key
sets of the batch, keys already present keep their original values, and keys
absent from a record but present elsewhere in the batch are filled with the
explicit placeholder string. -/
theorem c8_add_missing_keys (data : List PyDict) (d : PyDict) (hd : d ∈ data) :
    padRecord data d ∈ add_missing_keys data ∧
    (∀ k, ((padRecord data d).lookup k).isSome ↔ ∃ r ∈ data, (r.lookup k).isSome) ∧
    (∀ k, (d.lookup k).isSome → (padRecord data d).lookup k = d.lookup k) ∧
    (∀ k, (d.lookup k).isNone → (∃ r ∈ data, (r.lookup k).isSome) →
      (padRecord data d).lookup k = some (some "[null]")) := by
  have hfill : ∀ q : String,
      (((allKeys data).filter (fun x => (d.lookup x).isNone)).map
        (fun x => (x, some "[null]"))).lookup q =
      if q ∈ (allKeys data).filter (fun x => (d.lookup x).isNone) then some (some "[null]")
      else Option.none := fun q => lookup_map_sentinel _ q _
  refine ⟨List.mem_map_of_mem _ hd, ?_, ?_, ?_⟩
  · intro k
    unfold padRecord
    rw [List.lookup_append]
    constructor
    · intro h
      rcases Option.isSome_iff_exists.mp h with ⟨v, hv⟩
      rcases hor : d.lookup k with _ | w
      · rw [hor, Option.none_or, hfill] at hv
        split at hv
        · rename_i hmem
          rw [List.mem_filter] at hmem
          rcases (mem_allKeys data k).mp hmem.1 with ⟨r, hr, kv, hkv, hkvk⟩
          exact ⟨r, hr, (lookup_isSome_iff r k).mpr ⟨kv, hkv, hkvk⟩⟩
        · exact absurd hv (by simp)
      · exact ⟨d, hd, by rw [hor]; rfl⟩
    · intro hex
      rcases hex with ⟨r, hr, hrk⟩
      rcases hor : d.lookup k with _ | w
      · rw [Option.none_or, hfill]
        have hmem : k ∈ (allKeys data).filter (fun x => (d.lookup x).isNone) := by
          rw [List.mem_filter]
          refine ⟨(mem_allKeys data k).mpr ?_, by rw [hor]; rfl⟩
          rcases (lookup_isSome_iff r k).mp hrk with ⟨kv, hkv, hkvk⟩
          exact ⟨r, hr, kv, hkv, hkvk⟩
        rw [if_pos hmem]
        rfl
      · rfl
  · intro k hk
    unfold padRecord
    rw [List.lookup_append]
    rcases Option.isSome_iff_exists.mp hk with ⟨v, hv⟩
    rw [hv]
    rfl
  · intro k hk hex
    unfold padRecord
    rw [List.lookup_append, Option.isNone_iff_eq_none.mp hk, Option.none_or, hfill]
    have hmem : k ∈ (allKeys data).filter (fun q => (d.lookup q).isNone) := by
      rw [List.mem_filter]
      rcases hex with ⟨r, hr, hrk⟩
      rcases (lookup_isSome_iff r k).mp hrk with ⟨kv, hkv, hkvk⟩
      exact ⟨(mem_allKeys data k).mpr ⟨r, hr, kv, hkv, hkvk⟩, hk⟩
    rw [if_pos hmem]

/-- Witness for the C8 theorem at a concrete input. -/
theorem c8_add_missing_keys_witness :
    (padRecord [[("a", some "1")], [("b", Option.none)]] [("a", some "1")]).lookup "b" =
      some (some "[null]") ∧
    (padRecord [[("a", some "1")], [("b", Option.none)]] [("a", some "1")]).lookup "a" =
      some (some "1") := by
  have h := c8_add_missing_keys [[("a", some "1")], [("b", Option.none)]] [("a", some "1")]
    (by simp)
  refine ⟨h.2.2.2 "b" (by rfl) ⟨[("b", Option.none)], by simp, by rfl⟩, ?_⟩
  rw [h.2.2.1 "a" (by rfl)]
  rfl

/-! ## C9: schema classification -/

/-- Head inversion of the code-point order. -/
theorem charListLe_cons_iff {x y : Char} {xs ys : List Char} :
    charListLe (x :: xs) (y :: ys) = true ↔
      x.toNat < y.toNat ∨ (x.toNat = y.toNat ∧ charListLe xs ys = true) := by
  by_cases h1 : x.toNat < y.toNat
  · simp only [charListLe, if_pos h1]
    simp [h1]
  · by_cases h2 : y.toNat < x.toNat
    · simp only [charListLe, if_neg h1, if_pos h2]
      constructor
      · intro h
        simp at h
      · rintro (h | ⟨h, _⟩) <;> omega
    · have hEq : x.toNat = y.toNat := by omega
      simp only [charListLe, if_neg h1, if_neg h2]
      constructor
      · intro h
        exact Or.inr ⟨hEq, h⟩
      · rintro (h | ⟨_, h⟩)
        · omega
        · exact h

/-- Totality of the code-point order. -/
theorem charListLe_total (a b : List Char) :
    (charListLe a b || charListLe b a) = true := by
  induction a generalizing b with
  | nil => simp [charListLe]
  | cons x xs ih =>
    cases b with
    | nil => simp [charListLe]
    | cons y ys =>
      by_cases h1 : x.toNat < y.toNat
      · simp [charListLe, h1]
      · by_cases h2 : y.toNat < x.toNat
        · simp [charListLe, h1, h2]
        · have hEq : ¬ y.toNat < x.toNat := h2
          simp only [charListLe, if_neg h1, if_neg h2, if_neg (by omega : ¬ y.toNat < x.toNat),
            if_neg (by omega : ¬ x.toNat < y.toNat)]
          exact ih ys

/-- Transitivity of the code-point order. -/
theorem charListLe_trans {a b c : List Char} (h1 : charListLe a b = true)
    (h2 : charListLe b c = true) : charListLe a c = true := by
  induction a generalizing b c with
  | nil => simp [charListLe]
  | cons x xs ih =>
    cases b with
    | nil => simp [charListLe] at h1
    | cons y ys =>
      cases c with
      | nil => simp [charListLe] at h2
      | cons z zs =>
        rw [charListLe_cons_iff] at h1 h2 ⊢
        rcases h1 with h1 | ⟨h1e, h1l⟩ <;> rcases h2 with h2 | ⟨h2e, h2l⟩
        · exact Or.inl (by omega)
        · exact Or.inl (by omega)
        · exact Or.inl (by omega)
        · exact Or.inr ⟨by omega, ih h1l h2l⟩

/-- Antisymmetry of the code-point order. -/
theorem charListLe_antisymm {a b : List Char} (h1 : charListLe a b = true)
    (h2 : charListLe b a = true) : a = b := by
  induction a generalizing b with
  | nil =>
    cases b with
    | nil => rfl
    | cons y ys => simp [charListLe] at h2
  | cons x xs ih =>
    cases b with
    | nil => simp [charListLe] at h1
    | cons y ys =>
      rw [charListLe_cons_iff] at h1 h2
      rcases h1 with h1 | ⟨h1e, h1l⟩ <;> rcases h2 with h2 | ⟨h2e, h2l⟩ <;> try omega
      have hval : x.val.toNat = y.val.toNat := h1e
      rw [Char.ext (UInt32.ext hval), ih h1l h2l]

instance : IsTotal String strLeR :=
  ⟨fun a b => by
    have h := charListLe_total a.data b.data
    rcases Bool.or_eq_true_iff.mp h with h | h
    · exact Or.inl h
    · exact Or.inr h⟩

instance : IsTrans String strLeR :=
  ⟨fun _ _ _ h1 h2 => charListLe_trans h1 h2⟩

instance : IsAntisymm String strLeR :=
  ⟨fun _ _ h1 h2 => String.ext (charListLe_antisymm h1 h2)⟩

/-- Sorting reaches a given sorted list exactly on permutations of it. -/
theorem insertionSort_eq_iff_perm (ks sig : List String) (hsig : List.Sorted strLeR sig) :
    List.insertionSort strLeR ks = sig ↔ ks.Perm sig := by
  constructor
  · intro h
    exact (List.perm_insertionSort strLeR ks).symm.trans (h ▸ List.Perm.refl _)
  · intro h
    exact List.eq_of_perm_of_sorted ((List.perm_insertionSort strLeR ks).trans h)
      (List.sorted_insertionSort strLeR ks) hsig

/-- For duplicate-free lists, permutation is the same as key-set equality. -/
theorem perm_iff_toFinset (ks sig : List String) (h1 : ks.Nodup) (h2 : sig.Nodup) :
    ks.Perm sig ↔ ks.toFinset = sig.toFinset :=
  ⟨fun h => List.toFinset_eq_of_perm _ _ h,
   fun h => List.perm_of_nodup_nodup_toFinset_eq h1 h2 h⟩

/-- A list of named keys is never the positional [0, 1, 2] signature. -/
theorem map_name_ne_idx3 (l : List String) :
    l.map JKey.name ≠ [JKey.idx 0, JKey.idx 1, JKey.idx 2] := by
  cases l with
  | nil => simp
  | cons a t => simp

/-- A list of array indices is never a non-empty list of named keys. -/
theorem idx_list_ne_map_name (n : Nat) (l : List String) (hl : l ≠ []) :
    (List.range n).map JKey.idx ≠ l.map JKey.name := by
  cases l with
  | nil => exact absurd rfl hl
  | cons a t =>
    cases n with
    | zero => simp
    | succ m => simp [List.range_succ_eq_map]

/-- The elif chain on an object document, reduced to comparisons of the sorted
key list against the two named signatures. -/
theorem classify_obj_eq (ks : List String) :
    classifyReport (JTop.obj ks) =
      (if List.insertionSort strLeR ks = flatSignature then Except.ok ClassifyResult.flat
       else if List.insertionSort strLeR ks = nestedSignature then
         Except.ok ClassifyResult.nested
       else Except.ok ClassifyResult.skipped) := by
  have hstep : classifyReport (JTop.obj ks) =
      (if (List.insertionSort strLeR ks).map JKey.name =
          [JKey.idx 0, JKey.idx 1, JKey.idx 2] then Except.ok ClassifyResult.standard
      else if (List.insertionSort strLeR ks).map JKey.name = flatSignature.map JKey.name then
        Except.ok ClassifyResult.flat
      else if (List.insertionSort strLeR ks).map JKey.name = nestedSignature.map JKey.name then
        Except.ok ClassifyResult.nested
      else Except.ok ClassifyResult.skipped) := rfl
  rw [hstep, if_neg (map_name_ne_idx3 _)]
  have hinj : Function.Injective (List.map JKey.name) :=
    List.map_injective_iff.mpr (fun _ _ hab => by injection hab)
  by_cases h2 : List.insertionSort strLeR ks = flatSignature
  · rw [if_pos (by rw [h2]), if_pos h2]
  · rw [if_neg (fun h => h2 (hinj h)), if_neg h2]
    by_cases h3 : List.insertionSort strLeR ks = nestedSignature
    · rw [if_pos (by rw [h3]), if_pos h3]
    · rw [if_neg (fun h => h3 (hinj h)), if_neg h3]

/-- An object document is classified flat exactly when its key set is the flat
signature's key set. -/
theorem classify_obj_flat_iff (ks : List String) (hnd : ks.Nodup) :
    classifyReport (JTop.obj ks) = Except.ok ClassifyResult.flat ↔
      ks.toFinset = flatSignature.toFinset := by
  rw [classify_obj_eq]
  have hsorted : List.Sorted strLeR flatSignature := by decide
  constructor
  · intro h
    by_cases hf : List.insertionSort strLeR ks = flatSignature
    · exact (perm_iff_toFinset _ _ hnd (by decide)).mp
        ((insertionSort_eq_iff_perm ks flatSignature hsorted).mp hf)
    · rw [if_neg hf] at h
      split at h <;> simp at h
  · intro h
    rw [if_pos ((insertionSort_eq_iff_perm ks flatSignature hsorted).mpr
      ((perm_iff_toFinset _ _ hnd (by decide)).mpr h))]

/-- An object document is classified nested exactly when its key set is the
nested signature's key set. -/
theorem classify_obj_nested_iff (ks : List String) (hnd : ks.Nodup) :
    classifyReport (JTop.obj ks) = Except.ok ClassifyResult.nested ↔
      ks.toFinset = nestedSignature.toFinset := by
  rw [classify_obj_eq]
  have hsf : List.Sorted strLeR flatSignature := by decide
  have hsn : List.Sorted strLeR nestedSignature := by decide
  constructor
  · intro h
    by_cases hf : List.insertionSort strLeR ks = flatSignature
    · rw [if_pos hf] at h
      simp at h
    · rw [if_neg hf] at h
      by_cases hn : List.insertionSort strLeR ks = nestedSignature
      · exact (perm_iff_toFinset _ _ hnd (by decide)).mp
          ((insertionSort_eq_iff_perm ks nestedSignature hsn).mp hn)
      · rw [if_neg hn] at h
        simp at h
  · intro h
    have hn : List.insertionSort strLeR ks = nestedSignature :=
      (insertionSort_eq_iff_perm ks nestedSignature hsn).mpr
        ((perm_iff_toFinset _ _ hnd (by decide)).mpr h)
    have hf : List.insertionSort strLeR ks ≠ flatSignature := by
      rw [hn]
      decide
    rw [if_neg hf, if_pos hn]

/-- An object document is never classified standard. -/
theorem classify_obj_ne_standard (ks : List String) :
    classifyReport (JTop.obj ks) ≠ Except.ok ClassifyResult.standard := by
  rw [classify_obj_eq]
  split
  · simp
  · split <;> simp

/-- An array document is standard exactly at length three, skipped otherwise. -/
theorem classify_arr (n : Nat) :
    classifyReport (JTop.arr n) =
      Except.ok (if n = 3 then ClassifyResult.standard else ClassifyResult.skipped) := by
  have hstep : classifyReport (JTop.arr n) =
      (if (List.range n).map JKey.idx = [JKey.idx 0, JKey.idx 1, JKey.idx 2] then
        Except.ok ClassifyResult.standard
      else if (List.range n).map JKey.idx = flatSignature.map JKey.name then
        Except.ok ClassifyResult.flat
      else if (List.range n).map JKey.idx = nestedSignature.map JKey.name then
        Except.ok ClassifyResult.nested
      else Except.ok ClassifyResult.skipped) := rfl
  rw [hstep]
  by_cases h3 : n = 3
  · rw [h3, if_pos (by decide : (List.range 3).map JKey.idx =
      [JKey.idx 0, JKey.idx 1, JKey.idx 2])]
    rfl
  · have hne : (List.range n).map JKey.idx ≠ [JKey.idx 0, JKey.idx 1, JKey.idx 2] := by
      intro h
      have hlen := congrArg List.length h
      simp at hlen
      exact h3 hlen
    rw [if_neg hne,
        if_neg (idx_list_ne_map_name n flatSignature (by decide)),
        if_neg (idx_list_ne_map_name n nestedSignature (by decide)),
        if_neg h3]

/-- A skipped document adds one to the counter and the loop continues. -/
theorem countSkipped_cons_skip (d : JTop) (rest : List JTop)
    (h : classifyReport d = Except.ok ClassifyResult.skipped) :
    countSkipped (d :: rest) = (countSkipped rest).map (· + 1) := by
  have hstep : countSkipped (d :: rest) =
      (match classifyReport d with
       | Except.error e => Except.error e
       | Except.ok ClassifyResult.skipped => (countSkipped rest).map (· + 1)
       | Except.ok _ => countSkipped rest) := rfl
  rw [hstep, h]

/-- C9 counterexample: a document whose top level is a scalar matches none of
the three signatures, yet it is not skipped: the jq keys query raises an
error, which aborts processing instead of incrementing the skip counter. -/
theorem c9_counterexample :
    classifyReport (JTop.num 5) = Except.error (PyError.valueError "number has no keys") ∧
    countSkipped [JTop.num 5] = Except.error (PyError.valueError "number has no keys") :=
  ⟨rfl, rfl⟩

/-- C9 amended: an array document is standard exactly at length three and
skipped otherwise; an object document (distinct keys) is flat or nested
exactly when its key set equals the respective signature, is never standard,
and is otherwise skipped with the counter incremented by one while processing
continues; a scalar or null document instead raises an error from the keys
query. -/
theorem c9_classification (n : Nat) (ks : List String) (hnd : ks.Nodup)
    (d : JTop) (rest : List JTop) (s : String)
    (hskip : classifyReport d = Except.ok ClassifyResult.skipped) :
    classifyReport (JTop.arr n) =
      Except.ok (if n = 3 then ClassifyResult.standard else ClassifyResult.skipped) ∧
    (classifyReport (JTop.obj ks) = Except.ok ClassifyResult.flat ↔
      ks.toFinset = flatSignature.toFinset) ∧
    (classifyReport (JTop.obj ks) = Except.ok ClassifyResult.nested ↔
      ks.toFinset = nestedSignature.toFinset) ∧
    classifyReport (JTop.obj ks) ≠ Except.ok ClassifyResult.standard ∧
    countSkipped (d :: rest) = (countSkipped rest).map (· + 1) ∧
    classifyReport (JTop.str s) = Except.error (PyError.valueError "string has no keys") ∧
    classifyReport JTop.null = Except.error (PyError.valueError "null (null) has no keys") :=
  ⟨classify_arr n, classify_obj_flat_iff ks hnd, classify_obj_nested_iff ks hnd,
   classify_obj_ne_standard ks, countSkipped_cons_skip d rest hskip, rfl, rfl⟩

/-- Witness for the C9 amended theorem at concrete inputs. -/
theorem c9_classification_witness :
    classifyReport (JTop.obj nestedSignature.reverse) = Except.ok ClassifyResult.nested ∧
    countSkipped [JTop.obj ["a"], JTop.arr 3] = Except.ok 1 := by
  have h := c9_classification 3 nestedSignature.reverse (by decide)
    (JTop.obj ["a"]) [JTop.arr 3] "x" rfl
  refine ⟨h.2.2.1.mpr (by decide), ?_⟩
  rw [h.2.2.2.2.1]
  rfl

/-! ## C10: the case-sensitive GM-number lookup -/

/-- The value of one upper-cased character's code point. -/
theorem pyUpperChar_toNat (c : Char) :
    (pyUpperChar c).toNat =
      if 97 ≤ c.toNat ∧ c.toNat ≤ 122 then c.toNat - 32 else c.toNat := by
  by_cases h : 97 ≤ c.toNat ∧ c.toNat ≤ 122
  · rw [pyUpperChar, dif_pos h, if_pos h]
    simp [Char.ofNatAux, Char.toNat, UInt32.toNat, UInt32.ofNatCore]
  · rw [pyUpperChar, dif_neg h, if_neg h]

/-- An upper-cased character is never an ASCII lower-case letter. -/
theorem isAsciiLower_pyUpperChar (c : Char) : isAsciiLower (pyUpperChar c) = false := by
  have h := pyUpperChar_toNat c
  unfold isAsciiLower
  by_cases hc : 97 ≤ c.toNat ∧ c.toNat ≤ 122
  · rw [if_pos hc] at h
    rw [h]
    obtain ⟨hc1, hc2⟩ := hc
    simp only [Bool.and_eq_false_iff, decide_eq_false_iff_not]
    omega
  · rw [if_neg hc] at h
    rw [h]
    simp only [Bool.and_eq_false_iff, decide_eq_false_iff_not]
    rcases not_and_or.mp hc with h1 | h1
    · exact Or.inl h1
    · exact Or.inr h1

/-- No character of an upper-cased string is ASCII lower-case. -/
theorem pyUpper_no_lower (t : String) (c : Char) (hc : c ∈ (pyUpper t).data) :
    isAsciiLower c = false := by
  obtain ⟨c2, _, rfl⟩ := List.mem_map.mp hc
  exact isAsciiLower_pyUpperChar c2

/-- A string containing an ASCII lower-case character differs from every
upper-cased string. -/
theorem ne_pyUpper_of_lower {s : String} (c : Char) (hc : c ∈ s.data)
    (hlow : isAsciiLower c = true) (t : String) : s ≠ pyUpper t := by
  intro h
  rw [h] at hc
  rw [pyUpper_no_lower t c hc] at hlow
  exact Bool.false_ne_true hlow

/-- A key containing an ASCII lower-case character misses the sample index,
because every index key is the upper-cased sample number. -/
theorem lookup_mkSampleAsKey_none (rows : List (String × List String)) (s : String)
    (hl : ∃ c ∈ s.data, isAsciiLower c = true) :
    (mkSampleAsKey rows).lookup s = Option.none := by
  obtain ⟨c, hc, hlow⟩ := hl
  induction rows with
  | nil => rfl
  | cons r t ih =>
    unfold mkSampleAsKey
    simp only [List.map_cons]
    rw [lookup_cons_ne _ _ (ne_pyUpper_of_lower c hc hlow r.1)]
    exact ih

/-- An ASCII lower-case character survives the underscore-to-dot rewrite. -/
theorem lower_mem_underscoreToDot {gm : List Char} {c : Char} (hc : c ∈ gm)
    (hlow : isAsciiLower c = true) :
    c ∈ (underscoreToDot (String.mk gm)).data := by
  have hcu : c ≠ '_' := by
    intro h
    rw [h] at hlow
    exact absurd hlow (by decide)
  refine List.mem_map.mpr ⟨c, hc, ?_⟩
  rw [if_neg (by simp [hcu])]

/-- C10: for a report whose path's first GM-number match contains a
lower-case letter while the corresponding upper-cased sample number is in the
index, the lookup misses: the record gets the sentinel panel text only, with
no r_code or preferred_condition_name enrichment. -/
theorem c10_case_sensitive_lookup_miss (rows : List (String × List String))
    (path : String) (record : PyDict) (gm : List Char)
    (hmatch : gmSearch path = some (String.mk gm))
    (hlower : ∃ c ∈ gm, isAsciiLower c = true)
    (_hpresent : ((mkSampleAsKey rows).lookup
      (pyUpper (underscoreToDot (String.mk gm)))).isSome) :
    enrichWithPanels (mkSampleAsKey rows) path record =
      dictSet record "panel" (some "Sample not in Medicover data") ∧
    ∀ k, k ≠ "panel" →
      (enrichWithPanels (mkSampleAsKey rows) path record).lookup k = record.lookup k := by
  obtain ⟨c, hc, hlow⟩ := hlower
  have hmiss : (mkSampleAsKey rows).lookup (underscoreToDot (String.mk gm)) = Option.none :=
    lookup_mkSampleAsKey_none rows _ ⟨c, lower_mem_underscoreToDot hc hlow, hlow⟩
  have henrich : enrichWithPanels (mkSampleAsKey rows) path record =
      dictSet record "panel" (some "Sample not in Medicover data") := by
    unfold enrichWithPanels
    rw [hmatch]
    simp only [hmiss]
  refine ⟨henrich, fun k hk => ?_⟩
  rw [henrich, lookup_dictSet, if_neg hk]

/-- Witness for the C10 theorem at a concrete input: the sample gm12.345 is in
the index under GM12.345, the path carries the lower-case gm12_345, and the
record only receives the sentinel panel value. -/
theorem c10_case_sensitive_lookup_miss_witness :
    enrichWithPanels (mkSampleAsKey [("gm12.345", ["p1"])]) "reports/gm12_345.json" [] =
      [("panel", some "Sample not in Medicover data")] := by
  have h := c10_case_sensitive_lookup_miss [("gm12.345", ["p1"])] "reports/gm12_345.json"
    [] ("gm12_345".data) rfl ⟨'g', by decide, by decide⟩ (by rfl)
  rw [h.1]
  rfl
